import Mathlib

/-!
Verification of the NTXGD monitor server (`server/app.js`).

The development shallowly embeds the scrape-and-merge core of the server:
the HTML extractor `extractFundraisingData`, the per-field merge performed
by the refresh handlers, the in-memory organization store, the seeding
routine `loadSeeds`, and the API handlers for single refresh, bulk refresh,
delete and summary.  JavaScript numbers are modelled as exact rationals
(`ℚ`): every number produced by the embedded code is an exact decimal with
at most two fractional digits, where IEEE double rounding is monotone and
preserves all comparisons used by the code.  Timestamps
(`new Date().toISOString()`) are threaded as an abstract `now : String`
parameter.  HTML documents are modelled post-parse, as the DOM tree that
`cheerio.load` produces (an `html` root wrapping `head` and `body`).
-/

namespace NTXGD

/-! ## JavaScript character classes and small string utilities -/

/-- The character class of the JavaScript regex token `\s`
(whitespace, per ECMA-262). -/
def jsWhite (c : Char) : Bool :=
  let n := c.toNat
  (n == 32) || (n == 9) || (n == 10) || (n == 13) || (n == 11) || (n == 12) ||
  (n == 0xa0) || (n == 0x1680) || (decide (0x2000 ≤ n) && decide (n ≤ 0x200a)) ||
  (n == 0x2028) || (n == 0x2029) || (n == 0x202f) || (n == 0x205f) ||
  (n == 0x3000) || (n == 0xfeff)

/-- The character class of the JavaScript regex token `\w`
(ASCII letters, digits, underscore). -/
def jsWordChar (c : Char) : Bool :=
  (('a' ≤ c && c ≤ 'z') || ('A' ≤ c && c ≤ 'Z') || ('0' ≤ c && c ≤ '9') || (c == '_'))

/-- ASCII decimal digit, the JavaScript regex token `\d`. -/
def jsDigit (c : Char) : Bool := '0' ≤ c && c ≤ '9'

/-- Lowercase a character list (ASCII case, as used by the slugs and
keywords this system compares). -/
def lowerList (l : List Char) : List Char := l.map Char.toLower

/-- `String.prototype.toLowerCase` on the ASCII strings this system uses. -/
def lowerStr (s : String) : String := String.mk (lowerList s.data)

/-- `String.prototype.trim`, with the JavaScript whitespace class. -/
def jsTrim (l : List Char) : List Char :=
  ((l.dropWhile jsWhite).reverse.dropWhile jsWhite).reverse

/-- Leading-segment test: does the second list start with the first? -/
def leadsWith : List Char → List Char → Bool
  | [], _ => true
  | _ :: _, [] => false
  | a :: as, b :: bs => (a == b) && leadsWith as bs

/-- Substring test on character lists (used for `/raised/i.test`). -/
def listHasSub (needle : List Char) : List Char → Bool
  | [] => needle.isEmpty
  | c :: t => leadsWith needle (c :: t) || listHasSub needle t

/-- `/raised/i.test(t)`: case-insensitive substring search. -/
def containsRaised (l : List Char) : Bool :=
  listHasSub ("raised".data) (lowerList l)

/-- Numeric value of a digit list (most significant first). -/
def digitsVal (l : List Char) : Nat :=
  l.foldl (fun a c => a * 10 + (c.toNat - ('0').toNat)) 0

/-! ## The dollar-amount regex `/\$\s*[\d,]+(?:\.\d{2})?/g` -/

/-- Match the regex `\$\s*[\d,]+(?:\.\d{2})?` at the head of the input.
Returns the matched characters and the rest of the input.  The `\s*` and
`[\d,]+` tokens are greedy; the optional `(?:\.\d{2})?` is taken when the
next characters are a dot followed by two digits (no backtracking into
`[\d,]+` is ever needed, since the optional group can simply be skipped). -/
def matchDollarAt : List Char → Option (List Char × List Char)
  | '$' :: rest =>
    let ws := rest.takeWhile jsWhite
    let r1 := rest.dropWhile jsWhite
    let dc := r1.takeWhile (fun c => jsDigit c || c == ',')
    let r2 := r1.dropWhile (fun c => jsDigit c || c == ',')
    if dc.isEmpty then none
    else
      match r2 with
      | '.' :: a :: b :: r3 =>
        if jsDigit a && jsDigit b then
          some ('$' :: (ws ++ dc ++ ['.', a, b]), r3)
        else some ('$' :: (ws ++ dc), r2)
      | _ => some ('$' :: (ws ++ dc), r2)
  | _ => none

/-- All matches of `/\$\s*[\d,]+(?:\.\d{2})?/g`: scan left to right,
emitting each leftmost match and resuming after it.  `fuel` bounds the
recursion; it is called with the input length, which suffices because
every step consumes at least one character. -/
def dollarScanAux : Nat → List Char → List (List Char)
  | 0, _ => []
  | _, [] => []
  | fuel + 1, c :: t =>
    match matchDollarAt (c :: t) with
    | some (m, rest) => m :: dollarScanAux fuel rest
    | none => dollarScanAux fuel t

/-- `t.match(/\$\s*[\d,]+(?:\.\d{2})?/g) || []`. -/
def dollarMatches (l : List Char) : List (List Char) :=
  dollarScanAux l.length l

/-- `parseFloat` on a non-negative decimal string (optionally headed by a
fractional part), returning `none` where JavaScript returns `NaN`. -/
def jsParseFloatQ (l : List Char) : Option ℚ :=
  let ds := l.takeWhile jsDigit
  let r := l.dropWhile jsDigit
  match r with
  | '.' :: rest =>
    let fs := rest.takeWhile jsDigit
    if ds.isEmpty && fs.isEmpty then none
    else some ((digitsVal ds : ℚ) + (digitsVal fs : ℚ) / ((10 : ℚ) ^ fs.length))
  | _ => if ds.isEmpty then none else some ((digitsVal ds : ℚ))

/-- `parseFloat(n.replace(/[\$\s,]/g, ''))` on one dollar match, `none`
where the result is `NaN` (filtered out by `Number.isFinite`). -/
def parseDollarQ (m : List Char) : Option ℚ :=
  jsParseFloatQ (m.filter (fun c => !(c == '$' || jsWhite c || c == ',')))

/-- `parseInt(s, 10)` on a string already stripped of commas: the value of
its leading digit run, `none` where JavaScript returns `NaN`. -/
def jsParseIntNat (l : List Char) : Option Nat :=
  let ds := l.takeWhile jsDigit
  if ds.isEmpty then none else some (digitsVal ds)

/-- The inner helper `pickDollar`: flat-map the dollar regex over the
candidate strings, parse each match, keep the finite ones, and take the
maximum (`Math.max(...parsed)`), or `0` when nothing parsed. -/
def pickDollar (arr : List (List Char)) : ℚ :=
  let parsed := (arr.flatMap dollarMatches).filterMap parseDollarQ
  match parsed with
  | [] => 0
  | x :: xs => xs.foldl max x

/-! ## The donor-count regex `/(\d{1,3}(?:,\d{3})*|\d+)\s+(donor|supporter|giver)s?/i` -/

/-- Case-insensitive literal-word test at the head of the input, returning
the rest of the input after the word. -/
def matchWordCI (w : List Char) (l : List Char) : Option (List Char) :=
  if lowerList (l.take w.length) == w then some (l.drop w.length) else none

/-- The tail of the donor regex after the captured group:
`\s+(donor|supporter|giver)s?`.  `\s+` is maximal (the following
alternation starts with a letter, so releasing whitespace cannot help). -/
def matchDonorTail (l : List Char) : Bool :=
  let ws := l.takeWhile jsWhite
  let r := l.dropWhile jsWhite
  if ws.isEmpty then false
  else
    match matchWordCI ("donor".data) r <|> matchWordCI ("supporter".data) r
          <|> matchWordCI ("giver".data) r with
    | some _ => true
    | none => false

/-- Greedy run of `(?:,\d{3})*` groups starting at `l`: the maximal number
of consecutive `,ddd` groups. -/
def commaGroupCount : Nat → List Char → Nat
  | 0, _ => 0
  | fuel + 1, ',' :: a :: b :: c :: r =>
    if jsDigit a && jsDigit b && jsDigit c then 1 + commaGroupCount fuel r else 0
  | _ + 1, _ => 0

/-- Try the first alternative `\d{1,3}(?:,\d{3})*` followed by the tail,
at head position, with the regex engine's backtracking order: the digit
count `k` tries 3, 2, 1 and the greedy star backtracks from its maximal
group count down to zero.  Returns the captured group 1. -/
def matchDonorAlt1 (l : List Char) : Option (List Char) :=
  ([3, 2, 1].filterMap (fun k =>
    let d := l.take k
    if d.length == k && d.all jsDigit then
      let rest := l.drop k
      let maxN := commaGroupCount rest.length rest
      (((List.range (maxN + 1)).map (fun i => maxN - i)).filterMap (fun n =>
        if matchDonorTail (rest.drop (4 * n)) then
          some (d ++ rest.take (4 * n))
        else none)).head?
    else none)).head?

/-- Try the second alternative `\d+` (maximal; the following `\s+` cannot
match a digit, so no backtracking into `\d+` can succeed) followed by the
tail, at head position. -/
def matchDonorAlt2 (l : List Char) : Option (List Char) :=
  let ds := l.takeWhile jsDigit
  if ds.isEmpty then none
  else if matchDonorTail (l.dropWhile jsDigit) then some ds else none

/-- Full donor regex at head position, alternatives in source order. -/
def matchDonorAt (l : List Char) : Option (List Char) :=
  matchDonorAlt1 l <|> matchDonorAlt2 l

/-- `body.match(donorRegex)`: group 1 of the leftmost match. -/
def findDonorGroupAux : Nat → List Char → Option (List Char)
  | 0, _ => none
  | _, [] => none
  | fuel + 1, c :: t =>
    match matchDonorAt (c :: t) with
    | some g => some g
    | none => findDonorGroupAux fuel t

/-- `parseInt(donorMatch[1].replace(/,/g,''), 10) || 0`, or `0` when the
regex does not match anywhere in the body text. -/
def findDonors (body : List Char) : Nat :=
  match findDonorGroupAux body.length body with
  | none => 0
  | some g => (jsParseIntNat (g.filter (fun c => !(c == ',')))).getD 0

/-! ## The goal regex `/goal[:\s]*\$?\s*([\d,]+)/i` -/

/-- Goal regex at head position.  `[:\s]*`, `\s*` and `[\d,]+` are
maximal: the characters each could release can never satisfy the next
token, so greedy matching is exact.  Returns the captured group 1. -/
def matchGoalAt (l : List Char) : Option (List Char) :=
  match matchWordCI ("goal".data) l with
  | none => none
  | some r0 =>
    let r1 := r0.dropWhile (fun c => c == ':' || jsWhite c)
    let r2 := match r1 with
      | '$' :: t => t
      | _ => r1
    let r3 := r2.dropWhile jsWhite
    let g := r3.takeWhile (fun c => jsDigit c || c == ',')
    if g.isEmpty then none else some g

/-- `body.match(goalRegex)`: group 1 of the leftmost match. -/
def findGoalGroupAux : Nat → List Char → Option (List Char)
  | 0, _ => none
  | _, [] => none
  | fuel + 1, c :: t =>
    match matchGoalAt (c :: t) with
    | some g => some g
    | none => findGoalGroupAux fuel t

/-- `parseInt(goalMatch[1].replace(/,/g,''), 10) || 0`, or `0` when the
regex does not match anywhere in the body text. -/
def findGoal (body : List Char) : Nat :=
  match findGoalGroupAux body.length body with
  | none => 0
  | some g => (jsParseIntNat (g.filter (fun c => !(c == ',')))).getD 0

/-! ## DOM model and the extractor `extractFundraisingData` -/

/-- A parsed DOM node: an element with a tag and children, or a text
node.  This is the tree `cheerio.load` produces from the fetched HTML. -/
inductive HtmlNode where
  | element : String → List HtmlNode → HtmlNode
  | text : String → HtmlNode

mutual

/-- Concatenated text of a node's subtree (`$(el).text()` in cheerio:
the text of all descendant text nodes, in document order). -/
def nodeText : HtmlNode → List Char
  | .text s => s.data
  | .element _ cs => nodeTextList cs

/-- Concatenated subtree text of a list of sibling nodes. -/
def nodeTextList : List HtmlNode → List Char
  | [] => []
  | n :: ns => nodeText n ++ nodeTextList ns

end

mutual

/-- All element nodes of a subtree in document (pre-)order; text nodes
are not elements and contribute nothing (`$('*')` selects elements). -/
def elementsOf : HtmlNode → List HtmlNode
  | .text _ => []
  | .element t cs => .element t cs :: elementsOfList cs

/-- Document-order elements of a list of sibling nodes. -/
def elementsOfList : List HtmlNode → List HtmlNode
  | [] => []
  | n :: ns => elementsOf n ++ elementsOfList ns

end

mutual

/-- All text-node strings of a subtree, in document order. -/
def textNodesOf : HtmlNode → List (List Char)
  | .text s => [s.data]
  | .element _ cs => textNodesOfList cs

/-- Document-order text nodes of a list of sibling nodes. -/
def textNodesOfList : List HtmlNode → List (List Char)
  | [] => []
  | n :: ns => textNodesOf n ++ textNodesOfList ns

end

/-- A loaded document: `cheerio.load` normalizes the input into
`<html><head>…</head><body>…</body></html>`. -/
structure HtmlDoc where
  head : List HtmlNode
  body : List HtmlNode

/-- The normalized root element of a loaded document. -/
def docRoot (d : HtmlDoc) : HtmlNode :=
  .element "html" [.element "head" d.head, .element "body" d.body]

/-- `$('*')`: every element of the document, document order (the `html`,
`head` and `body` wrapper elements included). -/
def allElements (d : HtmlDoc) : List HtmlNode := elementsOf (docRoot d)

/-- `$('body').text()`. -/
def bodyText (d : HtmlDoc) : List Char := nodeTextList d.body

/-- The `candidates` array: for each element, its trimmed subtree text,
kept when it is non-empty, contains `raised` (case-insensitive) and
contains a dollar-formatted number. -/
def candidateTexts (d : HtmlDoc) : List (List Char) :=
  (allElements d).filterMap (fun el =>
    let t := jsTrim (nodeText el)
    if !t.isEmpty && containsRaised t && !(dollarMatches t).isEmpty then some t
    else none)

/-- Insert into an ascending list, keeping it ascending. -/
def insertAsc (x : ℚ) : List ℚ → List ℚ
  | [] => [x]
  | y :: t => if x ≤ y then x :: y :: t else y :: insertAsc x t

/-- Ascending numeric sort, the JavaScript `nums.sort((a,b) => a-b)`
(two sorted rearrangements of the same numbers are equal, so the choice
of sorting algorithm is immaterial). -/
def sortAsc (l : List ℚ) : List ℚ := l.foldr insertAsc []

/-- The median fallback block: every dollar-formatted number in the body
text, parsed, sorted ascending, middle element (`nums[floor(len/2)]`);
`0` when there is none (the code then leaves `total` at `0`). -/
def medianFallback (body : List Char) : ℚ :=
  let nums := sortAsc ((dollarMatches body).filterMap parseDollarQ)
  if nums.isEmpty then 0 else nums.getD (nums.length / 2) 0

/-- The record returned by the extractor (and consumed by the merge). -/
structure ScrapedData where
  total : ℚ
  donors : ℚ
  goal : ℚ
  lastUpdated : String
  error : Option String
  deriving DecidableEq

/-- `extractFundraisingData(html)` of `server/app.js`: the proximity
pass over all elements (maximum dollar figure among candidate texts),
the donor and goal regexes over the body text, and the median fallback
when the total is still zero.  `new Date().toISOString()` is the `now`
parameter; `error` is always null. -/
def extractFundraisingData (d : HtmlDoc) (now : String) : ScrapedData :=
  let total0 := pickDollar (candidateTexts d)
  let body := bodyText d
  let donors := findDonors body
  let goal := findGoal body
  let total := if total0 == 0 then medianFallback body else total0
  { total := total, donors := (donors : ℚ), goal := (goal : ℚ),
    lastUpdated := now, error := none }

/-! ## URL validation, slugs and seeding -/

/-- The components of a parsed URL that `isValidOrgUrl`/`urlToId` read. -/
structure UrlParts where
  protocol : String
  hostname : String
  pathname : String
  deriving DecidableEq

/-- Split a character list at the first `://`, returning the scheme part
and the remainder. -/
def splitSchemeSep : List Char → Option (List Char × List Char)
  | [] => none
  | ':' :: '/' :: '/' :: r => some ([], r)
  | c :: t => (splitSchemeSep t).map (fun p => (c :: p.1, p.2))

/-- A syntactically valid URL scheme: a letter followed by letters,
digits, `+`, `-` or `.`. -/
def validScheme : List Char → Bool
  | [] => false
  | c :: t => (c.isAlpha) && t.all (fun c => c.isAlpha || jsDigit c || c == '+' || c == '-' || c == '.')

/-- `new URL(raw)` for the simple absolute `scheme://host/path` URLs this
system handles: scheme and host are lowercased, an optional `:port` is
dropped from the hostname, the pathname runs to the first `?` or `#` and
defaults to `/`.  Returns `none` where the `URL` constructor throws. -/
def parseUrl (raw : String) : Option UrlParts :=
  match splitSchemeSep raw.data with
  | none => none
  | some (scheme, rest) =>
    if validScheme scheme then
      let hostPort := rest.takeWhile (fun c => !(c == '/' || c == '?' || c == '#'))
      let after := rest.dropWhile (fun c => !(c == '/' || c == '?' || c == '#'))
      let host := hostPort.takeWhile (fun c => !(c == ':'))
      if host.isEmpty then none
      else
        let path := after.takeWhile (fun c => !(c == '?' || c == '#'))
        some { protocol := String.mk (lowerList scheme) ++ ":",
               hostname := String.mk (lowerList host),
               pathname := if path.isEmpty then "/" else String.mk path }
    else none

/-- `pathname.split('/')`: split a character list at every slash. -/
def splitSlash : List Char → List (List Char)
  | [] => [[]]
  | c :: t =>
    match splitSlash t with
    | [] => [[]]
    | g :: gs => if c == '/' then [] :: g :: gs else (c :: g) :: gs

/-- `u.pathname.split('/').filter(Boolean)`. -/
def pathParts (u : UrlParts) : List String :=
  ((splitSlash u.pathname.data).map String.mk).filter (fun s => !(s == ""))

/-- `isValidOrgUrl(raw)`: https, exact hostname, and a path of exactly
two non-empty segments whose first is `organization`. -/
def isValidOrgUrl (raw : String) : Bool :=
  match parseUrl raw with
  | none => false
  | some u =>
    (u.protocol == "https:") && (u.hostname == "www.northtexasgivingday.org") &&
    (let parts := pathParts u
     (parts.length == 2) && (parts.headD "" == "organization") &&
     decide (0 < (parts.getD 1 "").length))

/-- `urlToId(raw)`: the second non-empty path segment, lowercased (only
ever called on URLs accepted by `isValidOrgUrl`, where the segment
exists; the `""` default is unreachable there). -/
def urlToId (raw : String) : String :=
  match parseUrl raw with
  | none => ""
  | some u => lowerStr ((pathParts u).getD 1 "")

/-- The default-name transform of the source: replace every dash with a
space, then uppercase every word character that follows a word boundary
(the regex `\b\w` with an uppercasing replacer). -/
def titleCaseAux : Bool → List Char → List Char
  | _, [] => []
  | prevW, c :: t =>
    (if !prevW && jsWordChar c then c.toUpper else c) :: titleCaseAux (jsWordChar c) t

/-- The default display name derived from a slug. -/
def titleCase (id : String) : String :=
  String.mk (titleCaseAux false ((id.data).map (fun c => if c == '-' then ' ' else c)))

/-- A stored organization record. -/
structure Org where
  id : String
  url : String
  name : String
  total : ℚ
  donors : ℚ
  goal : ℚ
  lastUpdated : Option String
  error : Option String
  deriving DecidableEq

/-- The in-memory store `organizationsData`: a string-keyed object in
insertion order. -/
abbrev Store := List (String × Org)

/-- `organizationsData[id]` (read). -/
def findOrg (st : Store) (id : String) : Option Org :=
  (st.find? (fun p => p.1 == id)).map (fun p => p.2)

/-- `organizationsData[id] = o` (write): update the existing key in
place, or append a new key. -/
def setOrg : Store → String → Org → Store
  | [], id, o => [(id, o)]
  | (k, v) :: t, id, o => if k == id then (id, o) :: t else (k, v) :: setOrg t id o

/-- `delete organizationsData[id]`. -/
def removeOrg : Store → String → Store
  | [], _ => []
  | (k, v) :: t, id => if k == id then t else (k, v) :: removeOrg t id

/-- One seed entry of `config/organizations.json`. -/
structure SeedEntry where
  name : String
  url : String

/-- The seeding loop of `loadSeeds`: skip entries without a valid
organization URL (a missing/empty `url` also fails `isValidOrgUrl`),
derive the id from the URL, and insert a zeroed record when the id is
not already present. -/
def loadSeeds (st : Store) (seeds : List SeedEntry) : Store :=
  seeds.foldl (fun acc s =>
    if isValidOrgUrl s.url then
      let id := urlToId s.url
      match findOrg acc id with
      | some _ => acc
      | none => acc ++ [(id,
          { id := id, url := s.url,
            name := if s.name == "" then titleCase id else s.name,
            total := 0, donors := 0, goal := 0,
            lastUpdated := none, error := none })]
    else acc) st

/-! ## Refresh merge and the API handlers -/

/-- The per-field merge performed inline by both refresh handlers
(`server/app.js`, the spread assignment in the `:id/refresh` and bulk
`refresh` routes): the scraped total/donors are taken when strictly
positive (`(x||0) > 0 ? x : prev`), the scraped goal when truthy
(`data.goal || org.goal`, i.e. non-zero), `lastUpdated` is always
refreshed and `error` cleared.  On exact rationals `x||0` is the
identity, and the extractor's outputs are never `NaN`. -/
def mergeRefresh (org : Org) (data : ScrapedData) (now : String) : Org :=
  { org with
    total := if 0 < data.total then data.total else org.total,
    donors := if 0 < data.donors then data.donors else org.donors,
    goal := if data.goal ≠ 0 then data.goal else org.goal,
    lastUpdated := some now,
    error := none }

/-- The environment of one request: what fetching a given URL returns,
either the parsed page or the error message raised by `getWithRetry`. -/
abbrev Fetcher := String → Except String HtmlDoc

/-- `PUT /api/organizations/:id/refresh`: 404 when the id is not stored;
otherwise fetch the record's URL, extract and merge on success (200), or
on fetch failure record `Failed to refresh: <msg>` and bump
`lastUpdated`, leaving the numeric fields alone (502). -/
def refreshOne (st : Store) (id : String) (f : Fetcher) (now : String) :
    Nat × Store :=
  match findOrg st id with
  | none => (404, st)
  | some org =>
    match f org.url with
    | .ok doc => (200, setOrg st id (mergeRefresh org (extractFundraisingData doc now) now))
    | .error msg =>
      (502, setOrg st id
        { org with error := some ("Failed to refresh: " ++ msg),
                   lastUpdated := some now })

/-- The loop body of the bulk refresh, walking the snapshot of
`Object.keys(organizationsData)` taken at loop entry and threading the
store; each id contributes a `success` or `error` tag to `results`.
The `none` branch mirrors a lookup miss and is unreachable for tracked
ids, since the per-id writes never change the key set. -/
def refreshAllAux (f : Fetcher) (now : String) : Store → List String → Store × List (String × String)
  | st, [] => (st, [])
  | st, id :: ids =>
    match findOrg st id with
    | none => refreshAllAux f now st ids
    | some org =>
      let step : Store × String :=
        match f org.url with
        | .ok doc =>
          (setOrg st id (mergeRefresh org (extractFundraisingData doc now) now), "success")
        | .error msg =>
          (setOrg st id
            { org with error := some ("Failed to refresh: " ++ msg),
                       lastUpdated := some now }, "error")
      let rest := refreshAllAux f now step.1 ids
      (rest.1, (id, step.2) :: rest.2)

/-- `PUT /api/organizations/refresh`: refresh every tracked organization
in stored order, returning the updated store and the per-id outcome
map. -/
def refreshAll (st : Store) (f : Fetcher) (now : String) : Store × List (String × String) :=
  refreshAllAux f now st (st.map Prod.fst)

/-- `DELETE /api/organizations/:id`: 404 when absent, otherwise delete
the record (200). -/
def deleteOrg (st : Store) (id : String) : Nat × Store :=
  match findOrg st id with
  | none => (404, st)
  | some _ => (200, removeOrg st id)

/-- `POST /api/organizations`: 400 on an invalid URL; the existing
record unchanged (200) when the id is already tracked; otherwise fetch
and extract, storing a new record (201) or reporting failure without
storing (502). -/
def postOrg (st : Store) (url name : String) (f : Fetcher) (now : String) :
    Nat × Store :=
  if isValidOrgUrl url then
    let id := urlToId url
    match findOrg st id with
    | some _ => (200, st)
    | none =>
      match f url with
      | .ok doc =>
        let data := extractFundraisingData doc now
        (201, setOrg st id
          { id := id, url := url,
            name := if name == "" then titleCase id else name,
            total := data.total, donors := data.donors, goal := data.goal,
            lastUpdated := some data.lastUpdated, error := data.error })
      | .error _ => (502, st)
  else (400, st)

/-- `Math.round`: round half toward positive infinity. -/
def jsRound (q : ℚ) : ℤ := ⌊q + 1 / 2⌋

/-- The body of `GET /api/summary`. -/
structure SummaryData where
  organizationCount : Nat
  totalRaised : ℚ
  totalDonors : ℚ
  totalGoal : ℚ
  averageGift : ℚ
  lastUpdated : String
  deriving DecidableEq

/-- `GET /api/summary`: sums of the per-organization fields (the `||0`
guards of the source are the identity on exact rationals) and the
guarded average `totalDonors > 0 ? Math.round((totalRaised/totalDonors)*100)/100 : 0`. -/
def summaryOf (st : Store) (now : String) : SummaryData :=
  let orgs := st.map Prod.snd
  let totalRaised := orgs.foldl (fun s o => s + o.total) 0
  let totalDonors := orgs.foldl (fun s o => s + o.donors) 0
  let totalGoal := orgs.foldl (fun s o => s + o.goal) 0
  { organizationCount := orgs.length,
    totalRaised := totalRaised,
    totalDonors := totalDonors,
    totalGoal := totalGoal,
    averageGift :=
      if 0 < totalDonors then ((jsRound (totalRaised / totalDonors * 100) : ℚ)) / 100
      else 0,
    lastUpdated := now }

/-! ## Spec-side definitions

Definitions in this block follow the words of the specification, not the
source; they exist only to be compared with the source-derived
definitions above. -/

/-- Follows the spec's words for the extractor's total (claim C2): "the
total is the maximum dollar-formatted figure among the text nodes that
contain the word raised together with a dollar-formatted number; only
when no total is found that way does it fall back to collecting every
dollar-formatted number on the page, sorting ascending, and taking the
middle element". -/
def specClaimTotal (d : HtmlDoc) : ℚ :=
  let cands := (textNodesOf (docRoot d)).filter
    (fun t => containsRaised t && !(dollarMatches t).isEmpty)
  if !cands.isEmpty then pickDollar cands else medianFallback (bodyText d)

/-- Follows the spec's words "rounded to 2 decimal places" (claim C5). -/
def roundTo2 (q : ℚ) : ℚ := ((⌊q * 100 + 1 / 2⌋ : ℤ) : ℚ) / 100

/-! ## Store lemmas -/

theorem findOrg_eq_none_of_not_mem (st : Store) (id : String)
    (h : id ∉ st.map Prod.fst) : findOrg st id = none := by
  induction st with
  | nil => rfl
  | cons p t ih =>
    simp only [List.map_cons, List.mem_cons, not_or] at h
    simp only [findOrg, List.find?_cons]
    have hk : (p.1 == id) = false := by
      simp only [beq_eq_false_iff_ne]
      exact fun hkk => h.1 (hkk ▸ rfl)
    rw [hk]
    exact ih h.2

theorem findOrg_isSome_of_mem (st : Store) (id : String)
    (h : id ∈ st.map Prod.fst) : ∃ o, findOrg st id = some o := by
  induction st with
  | nil => simp at h
  | cons p t ih =>
    by_cases hk : p.1 = id
    · exact ⟨p.2, by simp [findOrg, List.find?_cons, hk]⟩
    · have hm : id ∈ t.map Prod.fst := by
        simp only [List.map_cons, List.mem_cons] at h
        rcases h with h | h
        · exact absurd h.symm hk
        · exact h
      obtain ⟨o, ho⟩ := ih hm
      refine ⟨o, ?_⟩
      simp only [findOrg, List.find?_cons] at ho ⊢
      have hkf : (p.1 == id) = false := by simp [hk]
      rw [hkf]
      exact ho

theorem mem_keys_of_findOrg (st : Store) (id : String) (o : Org)
    (h : findOrg st id = some o) : id ∈ st.map Prod.fst := by
  by_contra hn
  rw [findOrg_eq_none_of_not_mem st id hn] at h
  exact Option.noConfusion h

theorem keys_setOrg_of_mem (st : Store) (id : String) (o : Org)
    (h : id ∈ st.map Prod.fst) :
    (setOrg st id o).map Prod.fst = st.map Prod.fst := by
  induction st with
  | nil => simp at h
  | cons p t ih =>
    by_cases hk : p.1 = id
    · simp [setOrg, hk]
    · have hm : id ∈ t.map Prod.fst := by
        simp only [List.map_cons, List.mem_cons] at h
        rcases h with h | h
        · exact absurd h.symm hk
        · exact h
      have hkf : (p.1 == id) = false := by simp [hk]
      simp [setOrg, hkf, ih hm]

theorem findOrg_setOrg_self (st : Store) (id : String) (o : Org) :
    findOrg (setOrg st id o) id = some o := by
  induction st with
  | nil => simp [setOrg, findOrg, List.find?_cons]
  | cons p t ih =>
    by_cases hk : p.1 = id
    · simp [setOrg, hk, findOrg, List.find?_cons]
    · have hkf : (p.1 == id) = false := by simp [hk]
      simp only [setOrg, hkf, Bool.false_eq_true, if_false, findOrg, List.find?_cons, hkf]
      exact ih

theorem keys_removeOrg (st : Store) (id : String) :
    (removeOrg st id).map Prod.fst = (st.map Prod.fst).erase id := by
  induction st with
  | nil => rfl
  | cons p t ih =>
    by_cases hk : p.1 = id
    · simp [removeOrg, hk, List.erase_cons]
    · have hkf : (p.1 == id) = false := by simp [hk]
      simp [removeOrg, hkf, List.erase_cons, ih]

theorem keys_refreshAllAux (f : Fetcher) (now : String) (ids : List String) :
    ∀ st : Store,
      ((refreshAllAux f now st ids).1).map Prod.fst = st.map Prod.fst := by
  induction ids with
  | nil => intro st; rfl
  | cons id ids ih =>
    intro st
    cases hfo : findOrg st id with
    | none => simp only [refreshAllAux, hfo]; exact ih st
    | some org =>
      have hmem := mem_keys_of_findOrg st id org hfo
      cases hf : f org.url with
      | ok doc =>
        simp only [refreshAllAux, hfo, hf]
        rw [ih _, keys_setOrg_of_mem _ _ _ hmem]
      | error msg =>
        simp only [refreshAllAux, hfo, hf]
        rw [ih _, keys_setOrg_of_mem _ _ _ hmem]

theorem results_refreshAllAux (f : Fetcher) (now : String) (ids : List String) :
    ∀ st : Store, (∀ id ∈ ids, id ∈ st.map Prod.fst) →
      ((refreshAllAux f now st ids).2).map Prod.fst = ids ∧
      ∀ p ∈ (refreshAllAux f now st ids).2, p.2 = "success" ∨ p.2 = "error" := by
  induction ids with
  | nil => intro st _; exact ⟨rfl, by intro p hp; simp [refreshAllAux] at hp⟩
  | cons id ids ih =>
    intro st h
    have hid : id ∈ st.map Prod.fst := h id (List.mem_cons_self id ids)
    obtain ⟨org, hfo⟩ := findOrg_isSome_of_mem st id hid
    have htail : ∀ i ∈ ids, i ∈ st.map Prod.fst :=
      fun i hi => h i (List.mem_cons_of_mem id hi)
    cases hf : f org.url with
    | ok doc =>
      have hkeys : ∀ o', (setOrg st id o').map Prod.fst = st.map Prod.fst :=
        fun o' => keys_setOrg_of_mem st id o' hid
      have ihres := ih (setOrg st id (mergeRefresh org (extractFundraisingData doc now) now))
        (fun i hi => (hkeys _).symm ▸ htail i hi)
      simp only [refreshAllAux, hfo, hf]
      refine ⟨?_, ?_⟩
      · simp [ihres.1]
      · intro p hp
        simp only [List.mem_cons] at hp
        rcases hp with hp | hp
        · subst hp; exact Or.inl rfl
        · exact ihres.2 p hp
    | error msg =>
      have hkeys : ∀ o', (setOrg st id o').map Prod.fst = st.map Prod.fst :=
        fun o' => keys_setOrg_of_mem st id o' hid
      have ihres := ih (setOrg st id
          { org with error := some ("Failed to refresh: " ++ msg),
                     lastUpdated := some now })
        (fun i hi => (hkeys _).symm ▸ htail i hi)
      simp only [refreshAllAux, hfo, hf]
      refine ⟨?_, ?_⟩
      · simp [ihres.1]
      · intro p hp
        simp only [List.mem_cons] at hp
        rcases hp with hp | hp
        · subst hp; exact Or.inr rfl
        · exact ihres.2 p hp

theorem foldl_add_map (g : Org → ℚ) (l : List Org) :
    ∀ a : ℚ, l.foldl (fun s o => s + g o) a = a + (l.map g).sum := by
  induction l with
  | nil => intro a; simp
  | cons o t ih => intro a; simp [List.foldl_cons, ih (a + g o), add_assoc]

/-! ## Concrete instances used by the claim theorems -/

/-- A stored record with a previous total of 100. -/
def cOrgPrev100 : Org :=
  { id := "a", url := "u", name := "A", total := 100, donors := 10, goal := 500,
    lastUpdated := none, error := none }

/-- A scrape reading a total of 1000 (ten times the previous 100). -/
def cScr1000 : ScrapedData :=
  { total := 1000, donors := 10, goal := 500, lastUpdated := "t", error := none }

/-- A scrape reading a total of 400 (four times the previous 100). -/
def cScr400 : ScrapedData :=
  { total := 400, donors := 10, goal := 500, lastUpdated := "t", error := none }

/-- A page whose only `raised` occurrence and whose dollar figures sit in
different leaf nodes: `<p>raised today</p><div>$5</div><div>$900</div><div>$7</div>`. -/
def c2doc : HtmlDoc :=
  ⟨[], [.element "p" [.text "raised today"], .element "div" [.text "$5"],
        .element "div" [.text "$900"], .element "div" [.text "$7"]]⟩

/-- A stored record used for the fetch-failure and merge instances. -/
def c3org : Org :=
  { id := "a", url := "https://www.northtexasgivingday.org/organization/a",
    name := "A", total := 7, donors := 3, goal := 9,
    lastUpdated := some "t0", error := none }

/-- A one-record store. -/
def c3store : Store := [("a", c3org)]

/-- A fetcher whose every request fails with message `boom`. -/
def c3fetch : Fetcher := fun _ => .error "boom"

/-- A second stored record, for the bulk-refresh instance. -/
def c4orgB : Org :=
  { id := "b", url := "https://www.northtexasgivingday.org/organization/b",
    name := "B", total := 5, donors := 2, goal := 4,
    lastUpdated := none, error := none }

/-- A two-record store. -/
def c4store : Store := [("a", c3org), ("b", c4orgB)]

/-- A fetcher that fails for the first organization's URL and succeeds
with an empty page for every other URL. -/
def c4fetch : Fetcher := fun url =>
  if url == c3org.url then .error "down" else .ok ⟨[], []⟩

/-- A store whose organizations have 3 donors and 30 raised in all. -/
def c5store : Store :=
  [("a", { c3org with total := 10, donors := 2 }),
   ("b", { c4orgB with total := 20, donors := 1 })]

/-- A store whose organizations all have zero donors. -/
def c5storeZero : Store :=
  [("a", { c3org with total := 10, donors := 0 }),
   ("b", { c4orgB with total := 20, donors := 0 })]

/-- A stored record with positive donors and goal. -/
def c6org : Org :=
  { id := "a", url := "u", name := "A", total := 100, donors := 5, goal := 50,
    lastUpdated := none, error := none }

/-- A scrape whose donors and goal are 0 — finite values ≥ 0. -/
def c6scrZero : ScrapedData :=
  { total := 0, donors := 0, goal := 0, lastUpdated := "t", error := none }

/-- A scrape with strictly positive donors and goal. -/
def c6scrPos : ScrapedData :=
  { total := 1, donors := 3, goal := 7, lastUpdated := "t", error := none }

/-- A stored record that was never successfully read (total 0). -/
def c7org : Org :=
  { id := "a", url := "u", name := "A", total := 0, donors := 0, goal := 0,
    lastUpdated := none, error := none }

/-- A scrape reading a very large total. -/
def c7scr : ScrapedData :=
  { total := 1000000, donors := 0, goal := 0, lastUpdated := "t", error := none }

/-- The seed entry of the claim's example: its URL has the
`/organization/` path shape but a foreign host. -/
def c8badSeed : SeedEntry := ⟨"A", "https://host/organization/a-b"⟩

/-- The same seed entry with the host the validator requires. -/
def c8url : String := "https://www.northtexasgivingday.org/organization/a-b"

/-- The store seeded from the single corrected entry. -/
def c9store : Store := loadSeeds [] [⟨"A", c8url⟩]

/-- A stored record whose id is the lowercase slug `test-org-1`. -/
def c10org : Org :=
  { id := "test-org-1", url := "u", name := "T", total := 1, donors := 1,
    goal := 1, lastUpdated := none, error := none }

/-- A one-record store keyed by a lowercase slug. -/
def c10store : Store := [("test-org-1", c10org)]

/-- A fetcher that always fails (never reached in the C10 instance). -/
def c10fetch : Fetcher := fun _ => .error "net"

/-! ## Claims -/

/-- C1 (counterexample): the merge has no five-times suspicious-jump
rejection.  With a previous total of 100, a scraped total of 1000 (ten
times the previous) is accepted: the merged total is 1000, not the
previous 100 that the claim demands. -/
theorem claim1_counterexample :
    cOrgPrev100.total = 100 ∧ cScr1000.total = 1000 ∧
    (mergeRefresh cOrgPrev100 cScr1000 "t").total = 1000 ∧
    (mergeRefresh cOrgPrev100 cScr1000 "t").total ≠ 100 := by
  refine ⟨rfl, rfl, rfl, ?_⟩; decide

/-- C1 (amended): the merge accepts every strictly positive scraped
total regardless of its ratio to the previous total — there is no
suspicious-jump rejection — and keeps the previous total when the
scraped total is not positive.  In particular, with previous total 100 a
scraped total of 1000 yields merged total 1000, and a scraped total of
400 yields 400. -/
theorem claim1_amended (org : Org) (data : ScrapedData) (now : String) :
    (0 < data.total → (mergeRefresh org data now).total = data.total) ∧
    (data.total ≤ 0 → (mergeRefresh org data now).total = org.total) := by
  constructor
  · intro h; simp [mergeRefresh, h]
  · intro h; simp [mergeRefresh, not_lt.mpr h]

/-- Witness for C1: the amended theorem applied at the claim's own
figures, previous total 100 with scraped totals 1000 and 400. -/
theorem claim1_witness :
    ((0 : ℚ) < cScr1000.total ∧
      (mergeRefresh cOrgPrev100 cScr1000 "t").total = cScr1000.total) ∧
    ((0 : ℚ) < cScr400.total ∧
      (mergeRefresh cOrgPrev100 cScr400 "t").total = cScr400.total) :=
  ⟨⟨by decide, (claim1_amended cOrgPrev100 cScr1000 "t").1 (by decide)⟩,
   ⟨by decide, (claim1_amended cOrgPrev100 cScr400 "t").1 (by decide)⟩⟩

/-- C2 (counterexample): the extractor's first pass iterates elements,
whose text includes everything under them — ancestors included — not
individual text nodes.  On a page where `raised` and the dollar figures
sit in different leaves, no text node contains both, so per the claim
the median fallback should yield 7; the code instead treats the whole
body as a candidate and returns the page maximum 900. -/
theorem claim2_counterexample :
    (extractFundraisingData c2doc "t").total = 900 ∧
    specClaimTotal c2doc = 7 ∧
    (extractFundraisingData c2doc "t").total ≠ specClaimTotal c2doc := by
  refine ⟨by decide, by decide, by decide⟩

/-- C2 (amended): candidates are whole elements, each contributing its
entire subtree text (so the `html` root is a candidate whenever `raised`
and a dollar figure appear anywhere in the document), and the total is
the maximum dollar figure over candidate texts; the fallback — every
dollar figure in the body, sorted ascending, middle element — applies
exactly when that maximum-based total is 0, including when candidates
exist but all their dollar figures are zero. -/
theorem claim2_amended (d : HtmlDoc) (now : String) :
    (pickDollar (candidateTexts d) ≠ 0 →
      (extractFundraisingData d now).total = pickDollar (candidateTexts d)) ∧
    (pickDollar (candidateTexts d) = 0 →
      (extractFundraisingData d now).total = medianFallback (bodyText d)) := by
  constructor
  · intro h
    simp only [extractFundraisingData]
    rw [if_neg (by simpa using h)]
  · intro h
    simp only [extractFundraisingData]
    rw [if_pos (by simpa using h)]

/-- Witness for C2: the amended theorem applied at the counterexample
page, whose candidate maximum 900 is non-zero. -/
theorem claim2_witness :
    pickDollar (candidateTexts c2doc) ≠ 0 ∧
    (extractFundraisingData c2doc "t").total = pickDollar (candidateTexts c2doc) :=
  ⟨by decide, (claim2_amended c2doc "t").1 (by decide)⟩

/-- C3: when the fetch of a stored organization's page fails, the single
refresh responds 502 (hence one of 502/503), stores the failure message
in the record's `error` field, sets `lastUpdated` to the attempt time,
and leaves `total`, `donors` and `goal` unchanged. -/
theorem claim3_fetch_failure (st : Store) (id : String) (org : Org)
    (f : Fetcher) (now msg : String)
    (hfind : findOrg st id = some org) (hf : f org.url = .error msg) :
    (refreshOne st id f now).1 = 502 ∧
    ((refreshOne st id f now).1 = 502 ∨ (refreshOne st id f now).1 = 503) ∧
    findOrg (refreshOne st id f now).2 id =
      some { org with error := some ("Failed to refresh: " ++ msg),
                      lastUpdated := some now } ∧
    ((findOrg (refreshOne st id f now).2 id).map Org.total = some org.total ∧
     (findOrg (refreshOne st id f now).2 id).map Org.donors = some org.donors ∧
     (findOrg (refreshOne st id f now).2 id).map Org.goal = some org.goal) := by
  have hstep : refreshOne st id f now =
      (502, setOrg st id
        { org with error := some ("Failed to refresh: " ++ msg),
                   lastUpdated := some now }) := by
    simp [refreshOne, hfind, hf]
  rw [hstep]
  refine ⟨rfl, Or.inl rfl, findOrg_setOrg_self st id _, ?_⟩
  rw [findOrg_setOrg_self st id _]
  exact ⟨rfl, rfl, rfl⟩

/-- Witness for C3: the theorem applied to a one-record store whose
fetcher fails with `boom`. -/
theorem claim3_witness :
    findOrg c3store "a" = some c3org ∧
    (refreshOne c3store "a" c3fetch "t").1 = 502 ∧
    findOrg (refreshOne c3store "a" c3fetch "t").2 "a" =
      some { c3org with error := some ("Failed to refresh: " ++ "boom"),
                        lastUpdated := some "t" } :=
  ⟨by decide,
   (claim3_fetch_failure c3store "a" c3org c3fetch "t" "boom" (by decide) rfl).1,
   (claim3_fetch_failure c3store "a" c3org c3fetch "t" "boom" (by decide) rfl).2.2.1⟩

/-- C4: the bulk refresh walks every tracked id and, whatever the
per-organization fetch outcomes, its results carry exactly one entry per
tracked id, in stored order and with no omissions, each tagged
`success` or `error`; no failure aborts the loop. -/
theorem claim4_bulk_refresh_total (st : Store) (f : Fetcher) (now : String) :
    ((refreshAll st f now).2).map Prod.fst = st.map Prod.fst ∧
    ∀ p ∈ (refreshAll st f now).2, p.2 = "success" ∨ p.2 = "error" := by
  exact results_refreshAllAux f now (st.map Prod.fst) st (fun _ h => h)

/-- C5: the summary's `totalRaised`, `totalDonors` and `totalGoal` are
the sums of the per-organization fields, and `averageGift` is
`totalRaised / totalDonors` rounded to two decimal places when
`totalDonors > 0` and exactly 0 when `totalDonors = 0` (no NaN is
representable in the exact-arithmetic model). -/
theorem claim5_summary (st : Store) (now : String) :
    (summaryOf st now).totalRaised = (st.map (fun p => p.2.total)).sum ∧
    (summaryOf st now).totalDonors = (st.map (fun p => p.2.donors)).sum ∧
    (summaryOf st now).totalGoal = (st.map (fun p => p.2.goal)).sum ∧
    (0 < (summaryOf st now).totalDonors →
      (summaryOf st now).averageGift =
        roundTo2 ((summaryOf st now).totalRaised / (summaryOf st now).totalDonors)) ∧
    ((summaryOf st now).totalDonors = 0 → (summaryOf st now).averageGift = 0) := by
  have hR : (summaryOf st now).totalRaised = (st.map (fun p => p.2.total)).sum := by
    simp [summaryOf, foldl_add_map Org.total, List.map_map, Function.comp_def]
  have hD : (summaryOf st now).totalDonors = (st.map (fun p => p.2.donors)).sum := by
    simp [summaryOf, foldl_add_map Org.donors, List.map_map, Function.comp_def]
  have hG : (summaryOf st now).totalGoal = (st.map (fun p => p.2.goal)).sum := by
    simp [summaryOf, foldl_add_map Org.goal, List.map_map, Function.comp_def]
  refine ⟨hR, hD, hG, ?_, ?_⟩
  · intro h
    have h' : 0 < (st.map Prod.snd).foldl (fun s o => s + o.donors) 0 := by
      simpa [summaryOf] using h
    simp [summaryOf, if_pos h', roundTo2, jsRound]
  · intro h
    have h' : (st.map Prod.snd).foldl (fun s o => s + o.donors) 0 = 0 := by
      simpa [summaryOf] using h
    simp [summaryOf, h']

/-- Witness for C5: the theorem applied to a store totalling 30 raised
over 3 donors (average 10), and to a store with zero donors. -/
theorem claim5_witness :
    (0 < (summaryOf c5store "t").totalDonors ∧
      (summaryOf c5store "t").averageGift =
        roundTo2 ((summaryOf c5store "t").totalRaised /
          (summaryOf c5store "t").totalDonors)) ∧
    ((summaryOf c5storeZero "t").totalDonors = 0 ∧
      (summaryOf c5storeZero "t").averageGift = 0) :=
  ⟨⟨by norm_num [summaryOf, c5store, c3org, c4orgB],
    (claim5_summary c5store "t").2.2.2.1
      (by norm_num [summaryOf, c5store, c3org, c4orgB])⟩,
   ⟨by norm_num [summaryOf, c5storeZero, c3org, c4orgB],
    (claim5_summary c5storeZero "t").2.2.2.2
      (by norm_num [summaryOf, c5storeZero, c3org, c4orgB])⟩⟩

/-- C6 (counterexample): a scraped donors value of 0 — a finite number
≥ 0 — is not accepted: with previous donors 5 the merged record keeps 5,
and likewise a scraped goal of 0 keeps the previous goal 50. -/
theorem claim6_counterexample :
    c6scrZero.donors = 0 ∧ (0 : ℚ) ≤ c6scrZero.donors ∧
    (mergeRefresh c6org c6scrZero "t").donors = 5 ∧
    (mergeRefresh c6org c6scrZero "t").donors ≠ c6scrZero.donors ∧
    c6scrZero.goal = 0 ∧
    (mergeRefresh c6org c6scrZero "t").goal = 50 ∧
    (mergeRefresh c6org c6scrZero "t").goal ≠ c6scrZero.goal := by
  refine ⟨rfl, by decide, rfl, by decide, rfl, rfl, by decide⟩

/-- C6 (amended): the merge accepts a scraped donors value only when it
is strictly positive, and a scraped goal value only when it is non-zero
(for the extractor's non-negative outputs: strictly positive); a scraped
value of 0 keeps the previous donors or goal. -/
theorem claim6_amended (org : Org) (data : ScrapedData) (now : String) :
    (0 < data.donors → (mergeRefresh org data now).donors = data.donors) ∧
    (data.donors = 0 → (mergeRefresh org data now).donors = org.donors) ∧
    (data.goal ≠ 0 → (mergeRefresh org data now).goal = data.goal) ∧
    (data.goal = 0 → (mergeRefresh org data now).goal = org.goal) := by
  refine ⟨fun h => by simp [mergeRefresh, h],
          fun h => by simp [mergeRefresh, h],
          fun h => by simp [mergeRefresh, h],
          fun h => by simp [mergeRefresh, h]⟩

/-- Witness for C6: the amended theorem applied at a strictly positive
scrape (accepted) and at the zero scrape (previous values kept). -/
theorem claim6_witness :
    ((0 : ℚ) < c6scrPos.donors ∧
      (mergeRefresh c6org c6scrPos "t").donors = c6scrPos.donors) ∧
    (c6scrZero.donors = 0 ∧
      (mergeRefresh c6org c6scrZero "t").donors = c6org.donors) ∧
    (c6scrPos.goal ≠ 0 ∧
      (mergeRefresh c6org c6scrPos "t").goal = c6scrPos.goal) ∧
    (c6scrZero.goal = 0 ∧
      (mergeRefresh c6org c6scrZero "t").goal = c6org.goal) :=
  ⟨⟨by decide, (claim6_amended c6org c6scrPos "t").1 (by decide)⟩,
   ⟨rfl, (claim6_amended c6org c6scrZero "t").2.1 rfl⟩,
   ⟨by decide, (claim6_amended c6org c6scrPos "t").2.2.1 (by decide)⟩,
   ⟨rfl, (claim6_amended c6org c6scrZero "t").2.2.2 rfl⟩⟩

/-- C7: when the previous stored total is 0, every strictly positive
scraped total is accepted as the merged total, regardless of magnitude —
no suspicious-jump rejection applies. -/
theorem claim7_zero_previous (org : Org) (data : ScrapedData) (now : String)
    (h0 : org.total = 0) (hp : 0 < data.total) :
    (mergeRefresh org data now).total = data.total := by
  simp [mergeRefresh, hp]

/-- Witness for C7: the theorem applied at a record with total 0 and a
scraped total of 1000000. -/
theorem claim7_witness :
    c7org.total = 0 ∧ (0 : ℚ) < c7scr.total ∧
    (mergeRefresh c7org c7scr "t").total = c7scr.total :=
  ⟨rfl, by decide, claim7_zero_previous c7org c7scr "t" rfl (by decide)⟩

/-- C8 (counterexample): seeding the claim's own example entry
`{name := "A", url := "https://host/organization/a-b"}` stores nothing:
the validator also requires the https scheme and the exact hostname
`www.northtexasgivingday.org`, so the entry is skipped and no record with
id `a-b` exists. -/
theorem claim8_counterexample :
    loadSeeds [] [c8badSeed] = [] ∧
    findOrg (loadSeeds [] [c8badSeed]) "a-b" = none := by
  refine ⟨by decide, by decide⟩

/-- C8 (amended): seeding an entry whose URL passes `isValidOrgUrl`
(https, hostname `www.northtexasgivingday.org`, and a path of exactly the
two segments `organization/<slug>`) stores one record whose id is the
path segment following `/organization/`, lowercased, with total,
donors and goal 0 and `lastUpdated` and `error` null; entries whose URL
fails that validation are skipped. -/
theorem claim8_amended (name url : String) (h : isValidOrgUrl url = true) :
    ∃ u seg, parseUrl url = some u ∧ pathParts u = ["organization", seg] ∧
      loadSeeds [] [⟨name, url⟩] =
        [(lowerStr seg,
          { id := lowerStr seg, url := url,
            name := if name == "" then titleCase (lowerStr seg) else name,
            total := 0, donors := 0, goal := 0,
            lastUpdated := none, error := none })] := by
  cases hp : parseUrl url with
  | none => rw [isValidOrgUrl, hp] at h; exact absurd h (by simp)
  | some u =>
    have hb : ((u.protocol == "https:") &&
        ((u.hostname == "www.northtexasgivingday.org") &&
          (((pathParts u).length == 2) &&
            (((pathParts u).headD "" == "organization") &&
              decide (0 < ((pathParts u).getD 1 "").length))))) = true := by
      rw [isValidOrgUrl, hp] at h
      simpa [Bool.and_assoc] using h
    simp only [Bool.and_eq_true, beq_iff_eq, decide_eq_true_eq] at hb
    obtain ⟨-, -, hlen, hhead, -⟩ := hb
    obtain ⟨a, b, hab⟩ := List.length_eq_two.mp hlen
    have ha : a = "organization" := by
      have := hhead; rw [hab] at this; simpa using this
    subst ha
    refine ⟨u, b, rfl, hab, ?_⟩
    have hid : urlToId url = lowerStr b := by
      simp only [urlToId, hp]
      rw [hab]
      rfl
    simp only [loadSeeds, List.foldl_cons, List.foldl_nil, h, if_true]
    rw [hid]
    rfl

/-- Witness for C8: the amended theorem applied at the corrected URL
`https://www.northtexasgivingday.org/organization/a-b`, which seeds the
record `a-b`. -/
theorem claim8_witness :
    isValidOrgUrl c8url = true ∧
    ∃ u seg, parseUrl c8url = some u ∧ pathParts u = ["organization", seg] ∧
      loadSeeds [] [⟨"A", c8url⟩] =
        [(lowerStr seg,
          { id := lowerStr seg, url := c8url,
            name := if ("A" : String) == "" then titleCase (lowerStr seg) else "A",
            total := 0, donors := 0, goal := 0,
            lastUpdated := none, error := none })] :=
  ⟨by decide, claim8_amended "A" c8url (by decide)⟩

/-- C9 (counterexample): the API can destroy a stored record.  Seeding
one organization stores the id set `["a-b"]`; a DELETE call on it
returns 200 and leaves the store empty, so the stored id set no longer
equals the seeded set. -/
theorem claim9_counterexample :
    c9store.map Prod.fst = ["a-b"] ∧
    (deleteOrg c9store "a-b").1 = 200 ∧
    ((deleteOrg c9store "a-b").2).map Prod.fst = [] := by
  refine ⟨by decide, by decide, by decide⟩

/-- C9 (amended): the read and refresh operations preserve the stored id
set — neither a single refresh nor a bulk refresh creates or destroys a
record — but the invariant that the stored ids equal the seeded ids only
holds until a destructive call: `DELETE /api/organizations/:id` removes
the addressed record from the store (and `POST /api/organizations` can
create one). -/
theorem claim9_amended :
    (∀ (st : Store) (id : String) (f : Fetcher) (now : String),
      ((refreshOne st id f now).2).map Prod.fst = st.map Prod.fst) ∧
    (∀ (st : Store) (f : Fetcher) (now : String),
      ((refreshAll st f now).1).map Prod.fst = st.map Prod.fst) ∧
    (∀ (st : Store) (id : String) (org : Org), findOrg st id = some org →
      ((deleteOrg st id).2).map Prod.fst = (st.map Prod.fst).erase id) := by
  refine ⟨?_, ?_, ?_⟩
  · intro st id f now
    cases hfo : findOrg st id with
    | none => simp [refreshOne, hfo]
    | some org =>
      have hmem := mem_keys_of_findOrg st id org hfo
      cases hf : f org.url with
      | ok doc => simp [refreshOne, hfo, hf, keys_setOrg_of_mem st id _ hmem]
      | error msg => simp [refreshOne, hfo, hf, keys_setOrg_of_mem st id _ hmem]
  · intro st f now
    exact keys_refreshAllAux f now (st.map Prod.fst) st
  · intro st id org hfo
    simp [deleteOrg, hfo, keys_removeOrg]

/-- Witness for C9: the amended theorem's delete clause applied at the
seeded store, removing `a-b`. -/
theorem claim9_witness :
    ((deleteOrg c9store "a-b").2).map Prod.fst = (c9store.map Prod.fst).erase "a-b" :=
  claim9_amended.2.2 c9store "a-b"
    { id := "a-b", url := c8url, name := "A", total := 0, donors := 0,
      goal := 0, lastUpdated := none, error := none } (by decide)

/-- C10: the single refresh matches its id parameter against stored ids
by exact string equality, with no case normalization: when every stored
id is lowercase and the request id differs from a stored id only in
letter case (so is not itself stored), the endpoint answers 404 and the
store is unchanged. -/
theorem claim10_case_sensitive_lookup (st : Store) (storedId reqId : String)
    (f : Fetcher) (now : String)
    (hlower : ∀ k ∈ st.map Prod.fst, lowerStr k = k)
    (hmem : storedId ∈ st.map Prod.fst)
    (hl : lowerStr reqId = storedId) (hne : reqId ≠ storedId) :
    refreshOne st reqId f now = (404, st) := by
  have hnot : reqId ∉ st.map Prod.fst := by
    intro hmemr
    exact hne ((hlower reqId hmemr).symm.trans hl)
  simp [refreshOne, findOrg_eq_none_of_not_mem st reqId hnot]

/-- Witness for C10: the theorem applied at the store holding
`test-org-1` and the request id `Test-Org-1`, which differs only in
case. -/
theorem claim10_witness :
    lowerStr "Test-Org-1" = "test-org-1" ∧
    ("Test-Org-1" : String) ≠ "test-org-1" ∧
    refreshOne c10store "Test-Org-1" c10fetch "t" = (404, c10store) :=
  ⟨by decide, by decide,
   claim10_case_sensitive_lookup c10store "test-org-1" "Test-Org-1" c10fetch "t"
     (by decide) (by decide) (by decide) (by decide)⟩

end NTXGD
